import Mathlib

/-!
Verification of the orbital propagation / collision-detection core of the
SpaceMarines service (src/Task3/api3.py) against its natural-language
specification.

Modelling conventions (shallow embedding):
* Python floats are modelled as rationals (ℚ); the transcendental library
  functions (sin, cos, asin, atan2, sqrt) and the constant pi are abstracted
  into a record of operations `RealOps`, over which all statements quantify,
  so every fact proved here holds for the real-number interpretation.
* Python's float modulo `x % m` (sign of the divisor, used only with positive
  divisors here) is `pyMod`.
* Python datetimes are modelled as rational seconds since the Unix epoch in
  UTC; `datetime.timestamp()` and `total_seconds()` are then the identity.
* Python dicts are modelled by association lists (insertion-iteration order)
  for the satellite store and by a lookup function for the orbit store, the
  view the specification itself takes.
* HTTP error responses are modelled by an error enumeration following the
  specification's taxonomy; each constructor is raised at exactly one place
  of the translated code.
-/

namespace SpaceMarines

/-- Abstract interface for the floating-point math library used by the code:
sqrt, trigonometric functions and the constant pi. -/
structure RealOps where
  pi : ℚ
  sqrt : ℚ → ℚ
  sin : ℚ → ℚ
  cos : ℚ → ℚ
  asin : ℚ → ℚ
  atan2 : ℚ → ℚ → ℚ

/-- Python's modulo on rationals: x % m = x - m * floor (x / m); for m > 0 the
result lies in [0, m), which is the Python float semantics. -/
def pyMod (x m : ℚ) : ℚ := x - m * (⌊x / m⌋ : ℤ)

/-- Satellite status enumeration ("active", "inactive", "deorbited"). -/
inductive SatStatus where
  | active
  | inactive
  | deorbited
deriving DecidableEq

/-- Orbit record (model class Orbit of api3.py). -/
structure Orbit where
  id : Int
  name : String
  orbital_altitude : ℚ
  inclination : ℚ
  raan : ℚ

/-- Satellite record (model class Satellite of api3.py); launch_date is in
seconds since the Unix epoch, UTC. -/
structure Satellite where
  id : Int
  name : String
  operator : String
  launch_date : ℚ
  status : SatStatus
  initial_longitude : ℚ
  orbit_id : Int

/-- Geodetic position (lat, lon in degrees, alt in km). -/
structure GeoPos where
  lat : ℚ
  lon : ℚ
  alt : ℚ
deriving DecidableEq

/-- Cartesian (ECEF-like) position in km. -/
structure CartPos where
  x : ℚ
  y : ℚ
  z : ℚ
deriving DecidableEq

/-- Error taxonomy of the specification; each constructor corresponds to one
raise site of the translated code. -/
inductive ApiError where
  | temporalError
  | referenceError
  | invalidStepError
  | invalidRangeError
deriving DecidableEq

/-- Helper wrap180 of get_satellite_position: ((x + 180) % 360) - 180. -/
def wrap180 (x : ℚ) : ℚ := pyMod (x + 180) 360 - 180

/-- Translation of GET /satellites/id/position (api3.py lines 380-410) after
string-level validation: the timestamp-before-launch check, the orbit lookup
and the orbital-mechanics computation. -/
def get_satellite_position (ops : RealOps) (orbits : Int → Option Orbit)
    (sat : Satellite) (ts : ℚ) : Except ApiError GeoPos :=
  if ts < sat.launch_date then .error .temporalError
  else
    match orbits sat.orbit_id with
    | none => .error .referenceError
    | some orbit =>
      let R_earth : ℚ := 6371
      let mu : ℚ := 3986004418 / 10000
      let a := R_earth + orbit.orbital_altitude
      let T := 2 * ops.pi * ops.sqrt (a ^ 3 / mu)
      let omega := 2 * ops.pi / T
      let delta_t := ts - sat.launch_date
      let inclination_r := orbit.inclination * ops.pi / 180
      let raan_r := orbit.raan * ops.pi / 180
      let initial_longitude_r := sat.initial_longitude * ops.pi / 180
      let theta := pyMod (omega * delta_t + initial_longitude_r) (2 * ops.pi)
      let lat_r := ops.asin (ops.sin inclination_r * ops.sin theta)
      let lon_r := ops.atan2 (ops.cos inclination_r * ops.sin theta) (ops.cos theta) + raan_r
      let lat := lat_r * 180 / ops.pi
      let lon := wrap180 (lon_r * 180 / ops.pi)
      .ok { lat := lat, lon := lon, alt := orbit.orbital_altitude }

/-- Geodetic-to-Cartesian conversion (api3.py lines 552-557): degrees to
radians, then a spherical-Earth conversion with r = 6371 + alt. -/
def toCartesian (ops : RealOps) (g : GeoPos) : CartPos :=
  let lat_rad := g.lat * ops.pi / 180
  let lon_rad := g.lon * ops.pi / 180
  let r := 6371 + g.alt
  { x := r * ops.cos lat_rad * ops.cos lon_rad
    y := r * ops.cos lat_rad * ops.sin lon_rad
    z := r * ops.sin lat_rad }

/-- Translation of the helper _compute_satellite_ecef_and_geo (api3.py lines
523-559): the same geodetic computation as the position endpoint followed by
the Cartesian conversion. -/
def compute_satellite_ecef_and_geo (ops : RealOps) (sat : Satellite)
    (orbit : Orbit) (ts : ℚ) : CartPos × GeoPos :=
  let R_earth : ℚ := 6371
  let mu : ℚ := 3986004418 / 10000
  let a := R_earth + orbit.orbital_altitude
  let T := 2 * ops.pi * ops.sqrt (a ^ 3 / mu)
  let omega := 2 * ops.pi / T
  let delta_t := ts - sat.launch_date
  let inclination_r := orbit.inclination * ops.pi / 180
  let raan_r := orbit.raan * ops.pi / 180
  let initial_longitude_r := sat.initial_longitude * ops.pi / 180
  let theta := pyMod (omega * delta_t + initial_longitude_r) (2 * ops.pi)
  let lat_r := ops.asin (ops.sin inclination_r * ops.sin theta)
  let lon_r := ops.atan2 (ops.cos inclination_r * ops.sin theta) (ops.cos theta) + raan_r
  let lat := lat_r * 180 / ops.pi
  let lon := wrap180 (lon_r * 180 / ops.pi)
  let geo : GeoPos := { lat := lat, lon := lon, alt := orbit.orbital_altitude }
  (toCartesian ops geo, geo)

/-- Left-pads a decimal string with zeros to the given width (Python's
zero-padded strftime fields). -/
def padLeft (s : String) (w : Nat) : String :=
  if s.length ≥ w then s else String.mk (List.replicate (w - s.length) '0') ++ s

/-- Two-digit zero-padded field. -/
def pad2 (n : Int) : String := padLeft (toString n) 2

/-- Civil date (year, month, day) of a day count relative to 1970-01-01 in the
proleptic Gregorian calendar, the calendar of Python's datetime. -/
def civilFromDays (days : Int) : Int × Int × Int :=
  let z := days + 719468
  let era := z.fdiv 146097
  let doe := z - era * 146097
  let yoe := (doe - doe.fdiv 1460 + doe.fdiv 36524 - doe.fdiv 146096).fdiv 365
  let y := yoe + era * 400
  let doy := doe - (365 * yoe + yoe.fdiv 4 - yoe.fdiv 100)
  let mp := (5 * doy + 2).fdiv 153
  let d := doy - (153 * mp + 2).fdiv 5 + 1
  let m := mp + (if mp < 10 then 3 else -9)
  (y + (if m ≤ 2 then 1 else 0), m, d)

/-- Second-precision part of the formatted instant, the strftime output for
the pattern year-month-dayThour:minute:second shared by both branches of
_format_utc; the instant is taken at the microsecond resolution of Python's
datetime. -/
def format_utc_seconds (t : ℚ) : String :=
  let usec : Int := ⌊t * 1000000⌋
  let sec := usec.fdiv 1000000
  let days := sec.fdiv 86400
  let sod := sec - days * 86400
  let ymd := civilFromDays days
  padLeft (toString ymd.1) 4 ++ "-" ++ pad2 ymd.2.1 ++ "-" ++ pad2 ymd.2.2
    ++ "T" ++ pad2 (sod.fdiv 3600) ++ ":" ++ pad2 ((sod.fdiv 60).emod 60)
    ++ ":" ++ pad2 (sod.emod 60)

/-- Millisecond field of the formatted instant: strftime %f produces six
microsecond digits of which the slice keeps the first three. -/
def format_utc_millis (t : ℚ) : String :=
  let usec : Int := ⌊t * 1000000⌋
  let usecOfSec := usec - usec.fdiv 1000000 * 1000000
  padLeft (toString (usecOfSec.fdiv 1000)) 3

/-- Translation of the helper _format_utc (api3.py lines 516-520): sub-second
steps are rendered with millisecond precision and a trailing Z, other steps
with second precision and a trailing Z. -/
def format_utc (t : ℚ) (step : ℚ) : String :=
  if step < 1 then format_utc_seconds t ++ "." ++ format_utc_millis t ++ "Z"
  else format_utc_seconds t ++ "Z"

/-- Numeric value of a digit string (int() on the digits captured by the step
pattern). -/
def digitsToNat (cs : List Char) : Nat :=
  cs.foldl (fun acc c => 10 * acc + (c.toNat - 48)) 0

/-- Decomposition of a step specification according to the regular expression
fullmatch of one or more digits followed by a unit among ms, s, m, h, d
(api3.py line 488); returns the magnitude and the unit on a match. -/
def stepSpecMatch (v : String) : Option (Nat × String) :=
  let cs := v.toList
  let digits := cs.takeWhile fun c => c.isDigit
  let rest := cs.dropWhile fun c => c.isDigit
  if digits = [] then none
  else if rest = ['m', 's'] ∨ rest = ['s'] ∨ rest = ['m'] ∨ rest = ['h'] ∨ rest = ['d'] then
    some (digitsToNat digits, String.mk rest)
  else none

/-- Seconds per unit, the mult table of _parse_precision (api3.py line 495). -/
def unitSeconds (unit : String) : ℚ :=
  if unit = "ms" then 1 / 1000
  else if unit = "s" then 1
  else if unit = "m" then 60
  else if unit = "h" then 3600
  else if unit = "d" then 86400
  else 0

/-- Translation of _parse_precision (api3.py lines 485-496): an absent spec
defaults to one minute; a non-matching spec or a zero magnitude fails; a
matching spec yields magnitude times the unit's duration in seconds. -/
def parse_precision (value : Option String) : Except ApiError ℚ :=
  match value with
  | none => .ok 60
  | some v =>
    match stepSpecMatch v with
    | none => .error .invalidStepError
    | some m =>
      if m.1 ≤ 0 then .error .invalidStepError
      else .ok ((m.1 : ℚ) * unitSeconds m.2)

/-- Translation of _round_datetime_to_grid (api3.py lines 510-514): floor the
epoch-seconds timestamp to a multiple of the step. -/
def round_datetime_to_grid (t step : ℚ) : ℚ :=
  (⌊t / step⌋ : ℤ) * step

/-- Translation of the grid generation loop of get_collisions (api3.py lines
434-438): starting at the rounded start, append the current instant and add
the step while the current instant is at most the rounded end. The loop is
guarded by positivity of the step, which _parse_precision guarantees. -/
def gridLoop (step e : ℚ) (current : ℚ) : List ℚ :=
  if h : 0 < step ∧ current ≤ e then
    current :: gridLoop step e (current + step)
  else []
termination_by (⌊(e - current) / step⌋ + 1).toNat
decreasing_by
  have hstep : 0 < step := h.1
  have hle : current ≤ e := h.2
  have h2 : e - (current + step) = (e - current) - step := by ring
  have h1 : (e - (current + step)) / step = (e - current) / step - 1 := by
    rw [h2, sub_div, div_self (ne_of_gt hstep)]
  rw [h1, Int.floor_sub_one]
  have h0 : (0 : ℤ) ≤ ⌊(e - current) / step⌋ := by
    exact Int.floor_nonneg.mpr (div_nonneg (sub_nonneg.mpr hle) (le_of_lt hstep))
  omega

/-- Collision event record (model class CollisionItem of api3.py). -/
structure CollisionItem where
  satellite1 : Int
  satellite2 : Int
  time : String
  position : GeoPos
deriving DecidableEq

/-- Default entry used for in-range indexing of the active-position list. -/
def dummyActive : Int × CartPos × GeoPos :=
  (0, { x := 0, y := 0, z := 0 }, { lat := 0, lon := 0, alt := 0 })

/-- Translation of the active-set construction of get_collisions (api3.py
lines 444-457): satellites whose orbit reference does not resolve, or whose
launch epoch is after the instant, are skipped; the rest are propagated. -/
def activeAt (ops : RealOps) (sats : List (Int × Satellite))
    (orbits : Int → Option Orbit) (ts : ℚ) : List (Int × CartPos × GeoPos) :=
  sats.filterMap fun p =>
    match orbits p.2.orbit_id with
    | none => none
    | some orbit =>
      if ts < p.2.launch_date then none
      else
        let eg := compute_satellite_ecef_and_geo ops p.2 orbit ts
        some (p.1, eg.1, eg.2)

/-- Translation of the double loop of get_collisions (api3.py lines 463-478):
for indices i < j into the active-position list, if the Euclidean distance of
the two Cartesian positions is below the threshold, emit an event carrying the
ascending pair of identifiers, the formatted instant and the geodetic position
of the entry at index i. -/
def pairScan (ops : RealOps) (step ts : ℚ)
    (active : List (Int × CartPos × GeoPos)) : List CollisionItem :=
  let n := active.length
  (List.range (n - 1)).flatMap fun i =>
    let entry1 := active.getD i dummyActive
    (List.range' (i + 1) (n - (i + 1))).filterMap fun j =>
      let entry2 := active.getD j dummyActive
      let dx := entry1.2.1.x - entry2.2.1.x
      let dy := entry1.2.1.y - entry2.2.1.y
      let dz := entry1.2.1.z - entry2.2.1.z
      let dist := ops.sqrt (dx * dx + dy * dy + dz * dz)
      if dist < 1 / 100 then
        some { satellite1 := min entry1.1 entry2.1
               satellite2 := max entry1.1 entry2.1
               time := format_utc ts step
               position := entry1.2.2 }
      else none

/-- Per-instant body of the scan loop (api3.py lines 443-478): the pair scan
runs only when the active set has at least two members. -/
def collisionsAtInstant (ops : RealOps) (sats : List (Int × Satellite))
    (orbits : Int → Option Orbit) (step ts : ℚ) : List CollisionItem :=
  let active := activeAt ops sats orbits ts
  if active.length < 2 then [] else pairScan ops step ts active

/-- Unsorted event stream of a whole scan: the loop over the time grid. -/
def scanEvents (ops : RealOps) (sats : List (Int × Satellite))
    (orbits : Int → Option Orbit) (step : ℚ) (grid : List ℚ) : List CollisionItem :=
  grid.flatMap fun ts => collisionsAtInstant ops sats orbits step ts

/-- Sort relation of the final ordering (api3.py line 480): lexicographic on
the tuple of formatted time (ordinary string comparison), first identifier,
second identifier. -/
def collisionLe (a b : CollisionItem) : Bool :=
  decide (a.time < b.time) ||
    (decide (a.time = b.time) &&
      (decide (a.satellite1 < b.satellite1) ||
        (decide (a.satellite1 = b.satellite1) && decide (a.satellite2 ≤ b.satellite2))))

/-- Translation of GET /collisions (api3.py lines 414-481) after string-level
parsing of the two range timestamps: step parsing, range check, grid rounding
and generation, per-instant scan and final sort. -/
def get_collisions (ops : RealOps) (sats : List (Int × Satellite))
    (orbits : Int → Option Orbit) (s e : ℚ) (precision : Option String) :
    Except ApiError (List CollisionItem) :=
  match parse_precision precision with
  | .error err => .error err
  | .ok step =>
    if e < s then .error .invalidRangeError
    else
      let s_rounded := round_datetime_to_grid s step
      let e_rounded := round_datetime_to_grid e step
      let time_grid := gridLoop step e_rounded s_rounded
      .ok ((scanEvents ops sats orbits step time_grid).mergeSort collisionLe)

/-- Position formula as worded by the specification (section 4.1 and claim
C1): period T = 2*pi*sqrt((6371+alt)^3/398600.4418), omega = 2*pi/T, phase
theta = (omega*dt + initial longitude in radians) mod 2*pi, latitude
asin(sin(incl)*sin(theta)) in degrees, longitude atan2(cos(incl)*sin(theta),
cos(theta)) plus RAAN, wrapped into the half-open range after conversion to
degrees, altitude the orbit's configured altitude. -/
def specPropagate (ops : RealOps) (sat : Satellite) (orbit : Orbit) (ts : ℚ) : GeoPos :=
  let T := 2 * ops.pi * ops.sqrt ((6371 + orbit.orbital_altitude) ^ 3 / (3986004418 / 10000))
  let omega := 2 * ops.pi / T
  let delta_t := ts - sat.launch_date
  let theta := pyMod (omega * delta_t + sat.initial_longitude * ops.pi / 180) (2 * ops.pi)
  { lat := ops.asin (ops.sin (orbit.inclination * ops.pi / 180) * ops.sin theta) * 180 / ops.pi
    lon := wrap180
      ((ops.atan2 (ops.cos (orbit.inclination * ops.pi / 180) * ops.sin theta) (ops.cos theta)
        + orbit.raan * ops.pi / 180) * 180 / ops.pi)
    alt := orbit.orbital_altitude }

/-- Cartesian conversion as worded by the specification (section 4.2 and claim
C9): r = R_earth + altitude, x = r cos(lat) cos(lon), y = r cos(lat) sin(lon),
z = r sin(lat), the angles taken in radians. -/
def specToCartesian (ops : RealOps) (g : GeoPos) : CartPos :=
  let r := 6371 + g.alt
  { x := r * ops.cos (g.lat * ops.pi / 180) * ops.cos (g.lon * ops.pi / 180)
    y := r * ops.cos (g.lat * ops.pi / 180) * ops.sin (g.lon * ops.pi / 180)
    z := r * ops.sin (g.lat * ops.pi / 180) }

/-- Event built from two active entries, first the entry encountered first in
iteration order: ascending identifiers, formatted instant, geodetic position
of the first entry. -/
def mkCollision (step ts : ℚ) (p q : Int × CartPos × GeoPos) : CollisionItem :=
  { satellite1 := min p.1 q.1
    satellite2 := max p.1 q.1
    time := format_utc ts step
    position := p.2.2 }

/-- Distance test of the scan: the Euclidean distance (square root of the sum
of squared coordinate differences) of the two Cartesian positions is strictly
below the minimum separation of 0.01 km. -/
abbrev closePair (ops : RealOps) (p q : Int × CartPos × GeoPos) : Prop :=
  ops.sqrt ((p.2.1.x - q.2.1.x) * (p.2.1.x - q.2.1.x)
    + (p.2.1.y - q.2.1.y) * (p.2.1.y - q.2.1.y)
    + (p.2.1.z - q.2.1.z) * (p.2.1.z - q.2.1.z)) < 1 / 100

/-- Per-instant scan as worded by the specification (section 4.4 and claim
C2): every unordered pair of distinct entries of the active list, each taken
exactly once with the earlier-listed entry first, contributes one event
exactly when the pair is closer than the minimum separation. -/
def specScanInstant (ops : RealOps) (step ts : ℚ) :
    List (Int × CartPos × GeoPos) → List CollisionItem
  | [] => []
  | p :: rest =>
      (rest.filterMap fun q => if closePair ops p q then some (mkCollision step ts p q) else none)
        ++ specScanInstant ops step ts rest

/-- Generic triangular enumeration: the body applied to every ordered pair of
list positions i < j, in row-major order. -/
def triangular (f : α → α → Option β) (d : α) (l : List α) : List β :=
  (List.range (l.length - 1)).flatMap fun i =>
    (List.range' (i + 1) (l.length - (i + 1))).filterMap fun j =>
      f (l.getD i d) (l.getD j d)

/-- Structural counterpart of the triangular enumeration. -/
def triangularRec (f : α → α → Option β) : List α → List β
  | [] => []
  | p :: rest => rest.filterMap (f p) ++ triangularRec f rest

/-- Satellite with the status field replaced (the only field the engine never
reads). -/
def setStatus (sat : Satellite) (st : SatStatus) : Satellite :=
  { sat with status := st }

/-- Concrete interpretation of the math operations used by the witnesses. -/
def sampleOps : RealOps :=
  { pi := 3, sqrt := fun _ => 1, sin := fun _ => 0, cos := fun _ => 1,
    asin := fun _ => 0, atan2 := fun _ _ => 0 }

/-- Concrete orbit used by the witnesses. -/
def sampleOrbit : Orbit :=
  { id := 1, name := "LEO", orbital_altitude := 550, inclination := 53, raan := 120 }

/-- Concrete satellite used by the witnesses. -/
def sampleSat : Satellite :=
  { id := 1, name := "Sat-1", operator := "ACME", launch_date := 0,
    status := .active, initial_longitude := 10, orbit_id := 1 }

/-- Ordering of collision events as worded by the specification: ascending in
the tuple of formatted-time string (ordinary string comparison), first
identifier, second identifier. -/
def collisionKeyLE (a b : CollisionItem) : Prop :=
  a.time < b.time
    ∨ (a.time = b.time
        ∧ (a.satellite1 < b.satellite1
            ∨ (a.satellite1 = b.satellite1 ∧ a.satellite2 ≤ b.satellite2)))

/-- Concrete satellite launched at t = 10, used by the witnesses. -/
def sampleSatLate : Satellite :=
  { sampleSat with launch_date := 10 }

/-! Shared helper lemmas. -/

/-- Step parsing can only fail with the invalid-step error. -/
theorem parse_precision_error_eq {prec : Option String} {err : ApiError}
    (h : parse_precision prec = .error err) : err = ApiError.invalidStepError := by
  cases prec with
  | none => simp [parse_precision] at h
  | some v =>
    rw [parse_precision] at h
    cases hm : stepSpecMatch v with
    | none =>
      rw [hm] at h
      exact (Except.error.injEq _ _ ▸ h).symm
    | some m =>
      rw [hm] at h
      by_cases hn : m.1 ≤ 0
      · simp only [hn, if_true, Except.error.injEq] at h
        exact h.symm
      · simp [hn] at h

/-- Index window of the inner loop: the indices from s to the end of the list
address exactly the dropped suffix. -/
theorem filterMap_getD_range' (g : α → Option β) (d : α) :
    ∀ (l : List α) (s : Nat),
      (List.range' s (l.length - s)).filterMap (fun j => g (l.getD j d))
        = (l.drop s).filterMap g := by
  intro l
  induction l with
  | nil => intro s; simp
  | cons x r ih =>
    intro s
    cases s with
    | zero =>
      have ih0 := ih 0
      rw [Nat.sub_zero, ← List.range_eq_range', List.drop_zero] at ih0
      rw [Nat.sub_zero, ← List.range_eq_range', List.drop_zero, List.length_cons,
        List.range_succ_eq_map]
      cases hgx : g x with
      | none =>
        simp only [List.filterMap_cons, List.getD_cons_zero, hgx, List.filterMap_map]
        rw [show ((fun j => g ((x :: r).getD j d)) ∘ Nat.succ)
            = (fun j => g (r.getD j d)) from funext fun j => by
          simp [Function.comp_apply, List.getD_cons_succ]]
        rw [ih0]
      | some b =>
        simp only [List.filterMap_cons, List.getD_cons_zero, hgx, List.filterMap_map]
        rw [show ((fun j => g ((x :: r).getD j d)) ∘ Nat.succ)
            = (fun j => g (r.getD j d)) from funext fun j => by
          simp [Function.comp_apply, List.getD_cons_succ]]
        rw [ih0]
    | succ s' =>
      have ihs := ih s'
      rw [List.range'_eq_map_range, List.filterMap_map] at ihs
      rw [List.length_cons, Nat.succ_sub_succ, List.drop_succ_cons,
        List.range'_eq_map_range, List.filterMap_map]
      rw [show ((fun j => g ((x :: r).getD j d)) ∘ (fun j => s' + 1 + j))
          = ((fun j => g (r.getD j d)) ∘ (fun j => s' + j)) from funext fun j => by
        simp only [Function.comp_apply]
        rw [show s' + 1 + j = (s' + j) + 1 by omega, List.getD_cons_succ]]
      exact ihs

/-- Inner loops of the triangular enumeration rewritten to list suffixes. -/
theorem triangular_drop (f : α → α → Option β) (d : α) (l : List α) :
    triangular f d l
      = (List.range (l.length - 1)).flatMap
          (fun i => (l.drop (i + 1)).filterMap (f (l.getD i d))) := by
  unfold triangular
  have h : ∀ i : ℕ,
      (List.range' (i + 1) (l.length - (i + 1))).filterMap
          (fun j => f (l.getD i d) (l.getD j d))
        = (l.drop (i + 1)).filterMap (f (l.getD i d)) :=
    fun i => filterMap_getD_range' (f (l.getD i d)) d l (i + 1)
  simp only [h]

/-- Index-based triangular double loop equals its structural counterpart. -/
theorem triangular_eq_rec (f : α → α → Option β) (d : α) :
    ∀ l : List α, triangular f d l = triangularRec f l := by
  intro l
  induction l with
  | nil => rfl
  | cons x r ih =>
    rw [triangular_drop, show triangularRec f (x :: r)
        = r.filterMap (f x) ++ triangularRec f r from rfl, ← ih, triangular_drop]
    simp only [List.length_cons, Nat.add_sub_cancel]
    cases r with
    | nil => simp
    | cons y r' =>
      simp only [List.length_cons, Nat.add_sub_cancel]
      rw [List.range_succ_eq_map, List.flatMap_cons, List.flatMap_map]
      congr 1

/-- Double loop of the scan as a triangular enumeration of the emission body. -/
theorem pairScan_eq_triangular (ops : RealOps) (step ts : ℚ)
    (active : List (Int × CartPos × GeoPos)) :
    pairScan ops step ts active
      = triangular
          (fun p q => if closePair ops p q then some (mkCollision step ts p q) else none)
          dummyActive active := rfl

/-- Specification-side scan is the structural triangular enumeration. -/
theorem specScanInstant_eq_rec (ops : RealOps) (step ts : ℚ) :
    ∀ l : List (Int × CartPos × GeoPos),
      specScanInstant ops step ts l
        = triangularRec
            (fun p q => if closePair ops p q then some (mkCollision step ts p q) else none)
            l := by
  intro l
  induction l with
  | nil => rfl
  | cons p rest ih =>
    rw [specScanInstant, triangularRec, ih]

/-- Double loop of the scan equals the specification-side pair enumeration. -/
theorem pairScan_eq_spec (ops : RealOps) (step ts : ℚ)
    (active : List (Int × CartPos × GeoPos)) :
    pairScan ops step ts active = specScanInstant ops step ts active := by
  rw [pairScan_eq_triangular, triangular_eq_rec, specScanInstant_eq_rec]

/-- Scan of an active set with fewer than two members yields no event. -/
theorem specScanInstant_short (ops : RealOps) (step ts : ℚ)
    (l : List (Int × CartPos × GeoPos)) (h : l.length < 2) :
    specScanInstant ops step ts l = [] := by
  cases l with
  | nil => rfl
  | cons p rest =>
    cases rest with
    | nil => rfl
    | cons q rest' => simp [List.length_cons] at h; omega

/-- Every event of the specification-side scan carries ascending identifiers
and the formatted instant. -/
theorem specScanInstant_forall (ops : RealOps) (step ts : ℚ) :
    ∀ l : List (Int × CartPos × GeoPos),
      (specScanInstant ops step ts l).Forall
        (fun evt => evt.satellite1 ≤ evt.satellite2 ∧ evt.time = format_utc ts step) := by
  intro l
  induction l with
  | nil => trivial
  | cons p rest ih =>
    rw [specScanInstant, List.forall_iff_forall_mem]
    intro evt hm
    rw [List.mem_append] at hm
    cases hm with
    | inl h =>
      obtain ⟨q, hq, he⟩ := List.mem_filterMap.mp h
      by_cases hc : closePair ops p q
      · rw [if_pos hc, Option.some.injEq] at he
        subst he
        exact ⟨min_le_max, rfl⟩
      · rw [if_neg hc] at he
        exact absurd he (by simp)
    | inr h =>
      have hall := ih
      rw [List.forall_iff_forall_mem] at hall
      exact hall evt h

/-- Closed form of the grid loop: for a positive step it produces the
arithmetic progression from the start instant, one element per step, while
the instants do not exceed the end. -/
theorem gridLoop_closed (step e : ℚ) (hstep : 0 < step) : ∀ c : ℚ,
    gridLoop step e c
      = (List.range (if c ≤ e then (⌊(e - c) / step⌋).toNat + 1 else 0)).map
          (fun i : ℕ => c + (i : ℚ) * step) := by
  refine gridLoop.induct step e _ ?_ ?_
  · intro c h ih
    obtain ⟨hs, hle⟩ := h
    have hnum : (0:ℚ) ≤ (e - c) / step := div_nonneg (sub_nonneg.mpr hle) hs.le
    have hfl0 : (0:ℤ) ≤ ⌊(e - c) / step⌋ := Int.floor_nonneg.mpr hnum
    have hshift : (e - (c + step)) / step = (e - c) / step - 1 := by
      rw [show e - (c + step) = (e - c) - step by ring, sub_div, div_self hs.ne']
    rw [gridLoop, dif_pos ⟨hs, hle⟩, ih, if_pos hle]
    by_cases hle2 : c + step ≤ e
    · have h1le : (1:ℚ) ≤ (e - c) / step := by
        rw [le_div_iff₀ hs]
        linarith
      have hfl1 : (1:ℤ) ≤ ⌊(e - c) / step⌋ := Int.le_floor.mpr (by exact_mod_cast h1le)
      rw [if_pos hle2, hshift, Int.floor_sub_one]
      have hcount : (⌊(e - c) / step⌋ - 1).toNat + 1 = (⌊(e - c) / step⌋).toNat := by omega
      rw [hcount, List.range_succ_eq_map, List.map_cons, List.map_map]
      have hzero : c + ((0 : ℕ) : ℚ) * step = c := by push_cast; ring
      rw [hzero]
      congr 1
      apply List.map_congr_left
      intro i _
      simp only [Function.comp_apply]
      push_cast
      ring
    · have hlt : e - c < step := by linarith
      have hfl : ⌊(e - c) / step⌋ = 0 := by
        apply Int.floor_eq_zero_iff.mpr
        refine ⟨hnum, ?_⟩
        rw [div_lt_one hs]
        exact hlt
      rw [if_neg hle2, hfl]
      simp [List.range_succ]
  · intro c h
    rw [gridLoop, dif_neg h]
    have hnle : ¬ c ≤ e := fun hle => h ⟨hstep, hle⟩
    rw [if_neg hnle]
    simp

/-! Claim theorems. -/

/-- C1: for every satellite, resolved orbit and timestamp at or after launch,
the position computation returns exactly the specification's formulas: phase
theta = (omega*dt + initial longitude in radians) mod 2*pi with
omega = 2*pi/T and T = 2*pi*sqrt((6371+alt)^3/398600.4418), latitude
asin(sin(incl)*sin(theta)) in degrees, longitude
atan2(cos(incl)*sin(theta), cos(theta)) plus RAAN wrapped into [-180,180)
after conversion to degrees, and altitude the orbit's configured altitude. -/
theorem C1_position_formula (ops : RealOps) (orbits : Int → Option Orbit)
    (sat : Satellite) (orbit : Orbit) (ts : ℚ)
    (horb : orbits sat.orbit_id = some orbit) (hts : sat.launch_date ≤ ts) :
    get_satellite_position ops orbits sat ts = .ok (specPropagate ops sat orbit ts) := by
  unfold get_satellite_position specPropagate
  rw [if_neg (not_lt.mpr hts), horb]

/-- Witness for C1 at a concrete satellite, orbit and timestamp. -/
theorem C1_position_formula_witness :
    (fun _ => some sampleOrbit : Int → Option Orbit) sampleSat.orbit_id = some sampleOrbit
    ∧ sampleSat.launch_date ≤ 5
    ∧ get_satellite_position sampleOps (fun _ => some sampleOrbit) sampleSat 5
        = .ok (specPropagate sampleOps sampleSat sampleOrbit 5) :=
  ⟨rfl, by norm_num [sampleSat],
    C1_position_formula sampleOps (fun _ => some sampleOrbit) sampleSat sampleOrbit 5 rfl
      (by norm_num [sampleSat])⟩

/-- C6: a timestamp strictly before the launch epoch makes the position query
fail with the temporal error; a timestamp at or after launch never produces
the temporal error. -/
theorem C6_temporal_error (ops : RealOps) (orbits : Int → Option Orbit)
    (sat : Satellite) (ts : ℚ) :
    (ts < sat.launch_date →
      get_satellite_position ops orbits sat ts = .error .temporalError)
    ∧ (sat.launch_date ≤ ts →
      get_satellite_position ops orbits sat ts ≠ .error .temporalError) := by
  constructor
  · intro h
    unfold get_satellite_position
    rw [if_pos h]
  · intro h
    unfold get_satellite_position
    rw [if_neg (not_lt.mpr h)]
    cases horb : orbits sat.orbit_id <;> simp

/-- Witness for C6 on both sides of the launch epoch. -/
theorem C6_temporal_error_witness :
    ((5 : ℚ) < sampleSatLate.launch_date
      ∧ get_satellite_position sampleOps (fun _ => none) sampleSatLate 5
        = .error .temporalError)
    ∧ (sampleSat.launch_date ≤ (5 : ℚ)
      ∧ get_satellite_position sampleOps (fun _ => none) sampleSat 5
        ≠ .error .temporalError) :=
  ⟨⟨by norm_num [sampleSatLate, sampleSat],
    (C6_temporal_error sampleOps (fun _ => none) sampleSatLate 5).1
      (by norm_num [sampleSatLate, sampleSat])⟩,
   ⟨by norm_num [sampleSat],
    (C6_temporal_error sampleOps (fun _ => none) sampleSat 5).2
      (by norm_num [sampleSat])⟩⟩

/-- C9: the geodetic-to-Cartesian conversion is a total function that matches
the specification's spherical-Earth formula (r = 6371 + alt,
x = r cos(lat) cos(lon), y = r cos(lat) sin(lon), z = r sin(lat), the angles
taken in radians), and the scan's Cartesian position is exactly this
conversion applied to the scan's geodetic position. -/
theorem C9_to_cartesian :
    (∀ (ops : RealOps) (g : GeoPos), toCartesian ops g = specToCartesian ops g)
    ∧ (∀ (ops : RealOps) (sat : Satellite) (orbit : Orbit) (ts : ℚ),
        (compute_satellite_ecef_and_geo ops sat orbit ts).1
          = toCartesian ops (compute_satellite_ecef_and_geo ops sat orbit ts).2) :=
  ⟨fun _ _ => rfl, fun _ _ _ _ => rfl⟩

/-- C10: the status field is never read by the engine: replacing any
satellite's status (by an arbitrary reassignment) changes neither the
single-position query nor the collision scan. -/
theorem C10_status_never_read :
    (∀ (ops : RealOps) (orbits : Int → Option Orbit) (sat : Satellite)
        (st : SatStatus) (ts : ℚ),
      get_satellite_position ops orbits (setStatus sat st) ts
        = get_satellite_position ops orbits sat ts)
    ∧ (∀ (ops : RealOps) (sats : List (Int × Satellite)) (orbits : Int → Option Orbit)
        (f : Int → SatStatus) (s e : ℚ) (prec : Option String),
      get_collisions ops (sats.map fun p => (p.1, setStatus p.2 (f p.1))) orbits s e prec
        = get_collisions ops sats orbits s e prec) := by
  constructor
  · intro ops orbits sat st ts
    rfl
  · intro ops sats orbits f s e prec
    have hactive : ∀ ts : ℚ,
        activeAt ops (sats.map fun p => (p.1, setStatus p.2 (f p.1))) orbits ts
          = activeAt ops sats orbits ts := by
      intro ts
      unfold activeAt
      rw [List.filterMap_map]
      rfl
    unfold get_collisions scanEvents collisionsAtInstant
    simp only [hactive]

/-- C5: the scan silently drops a satellite whose orbit does not resolve, and
drops, per instant, a satellite not yet launched, in both cases leaving the
scan of the remaining satellites unchanged; the scan itself never surfaces the
reference or temporal error, while the single-position query on an unresolved
orbit fails hard with the reference error. -/
theorem C5_exclusion_asymmetry :
    (∀ (ops : RealOps) (sats1 sats2 : List (Int × Satellite)) (i : Int) (b : Satellite)
        (orbits : Int → Option Orbit) (ts : ℚ), orbits b.orbit_id = none →
      activeAt ops (sats1 ++ (i, b) :: sats2) orbits ts
        = activeAt ops (sats1 ++ sats2) orbits ts)
    ∧ (∀ (ops : RealOps) (sats1 sats2 : List (Int × Satellite)) (i : Int) (b : Satellite)
        (orbits : Int → Option Orbit) (ts : ℚ), ts < b.launch_date →
      activeAt ops (sats1 ++ (i, b) :: sats2) orbits ts
        = activeAt ops (sats1 ++ sats2) orbits ts)
    ∧ (∀ (ops : RealOps) (sats : List (Int × Satellite)) (orbits : Int → Option Orbit)
        (s e : ℚ) (prec : Option String),
      get_collisions ops sats orbits s e prec ≠ .error .referenceError
      ∧ get_collisions ops sats orbits s e prec ≠ .error .temporalError)
    ∧ (∀ (ops : RealOps) (orbits : Int → Option Orbit) (sat : Satellite) (ts : ℚ),
        orbits sat.orbit_id = none → sat.launch_date ≤ ts →
      get_satellite_position ops orbits sat ts = .error .referenceError) := by
  refine ⟨?_, ?_, ?_, ?_⟩
  · intro ops sats1 sats2 i b orbits ts h
    simp [activeAt, List.filterMap_append, List.filterMap_cons, h]
  · intro ops sats1 sats2 i b orbits ts h
    cases horb : orbits b.orbit_id <;>
      simp [activeAt, List.filterMap_append, List.filterMap_cons, horb, h]
  · intro ops sats orbits s e prec
    cases hp : parse_precision prec with
    | error err =>
      have he := parse_precision_error_eq hp
      subst he
      constructor <;> simp [get_collisions, hp]
    | ok step =>
      by_cases hlt : e < s
      · constructor <;> simp [get_collisions, hp, hlt]
      · constructor <;> simp [get_collisions, hp, hlt]
  · intro ops orbits sat ts h hts
    unfold get_satellite_position
    rw [if_neg (not_lt.mpr hts), h]

/-- Witness for C5: a satellite with an unresolved orbit and a satellite not
yet launched are both dropped from the active set, and the hard failure of the
single-position query, all at concrete inputs. -/
theorem C5_exclusion_asymmetry_witness :
    ((fun _ => none : Int → Option Orbit) sampleSat.orbit_id = none
      ∧ activeAt sampleOps ([] ++ (1, sampleSat) :: []) (fun _ => none) 0
        = activeAt sampleOps ([] ++ []) (fun _ => none) 0)
    ∧ ((5 : ℚ) < sampleSatLate.launch_date
      ∧ activeAt sampleOps ([] ++ (1, sampleSatLate) :: []) (fun _ => some sampleOrbit) 5
        = activeAt sampleOps ([] ++ []) (fun _ => some sampleOrbit) 5)
    ∧ (get_satellite_position sampleOps (fun _ => none) sampleSat 0
        = .error .referenceError) :=
  ⟨⟨rfl, C5_exclusion_asymmetry.1 sampleOps [] [] 1 sampleSat (fun _ => none) 0 rfl⟩,
   ⟨by norm_num [sampleSatLate, sampleSat],
    C5_exclusion_asymmetry.2.1 sampleOps [] [] 1 sampleSatLate (fun _ => some sampleOrbit) 5
      (by norm_num [sampleSatLate, sampleSat])⟩,
   C5_exclusion_asymmetry.2.2.2 sampleOps (fun _ => none) sampleSat 0 rfl
     (by norm_num [sampleSat])⟩

/-- C7: an end instant strictly before the start fails with the invalid-range
error, independently of the satellite store (no propagation happens); an end
at or after the start never produces the invalid-range error. -/
theorem C7_invalid_range (ops : RealOps) (sats : List (Int × Satellite))
    (orbits : Int → Option Orbit) (s e : ℚ) (prec : Option String) :
    (∀ step : ℚ, parse_precision prec = .ok step → e < s →
      get_collisions ops sats orbits s e prec = .error .invalidRangeError)
    ∧ (e < s → get_collisions ops sats orbits s e prec
        = get_collisions ops [] orbits s e prec)
    ∧ (s ≤ e → get_collisions ops sats orbits s e prec ≠ .error .invalidRangeError) := by
  refine ⟨?_, ?_, ?_⟩
  · intro step hp hlt
    simp [get_collisions, hp, hlt]
  · intro hlt
    cases hp : parse_precision prec with
    | error err => simp [get_collisions, hp]
    | ok step => simp [get_collisions, hp, hlt]
  · intro hle
    cases hp : parse_precision prec with
    | error err =>
      have he := parse_precision_error_eq hp
      subst he
      simp [get_collisions, hp]
    | ok step =>
      simp [get_collisions, hp, not_lt.mpr hle]

/-- Witness for C7 with the default one-minute step at concrete instants. -/
theorem C7_invalid_range_witness :
    (parse_precision none = .ok 60 ∧ (0 : ℚ) < 1
      ∧ get_collisions sampleOps [] (fun _ => none) 1 0 none = .error .invalidRangeError)
    ∧ ((0 : ℚ) ≤ 1
      ∧ get_collisions sampleOps [] (fun _ => none) 0 1 none ≠ .error .invalidRangeError) :=
  ⟨⟨rfl, by norm_num,
    (C7_invalid_range sampleOps [] (fun _ => none) 1 0 none).1 60 rfl (by norm_num)⟩,
   ⟨by norm_num,
    (C7_invalid_range sampleOps [] (fun _ => none) 0 1 none).2.2 (by norm_num)⟩⟩

/-- C4: an absent step specification defaults to one minute; a specification
of one or more digits followed by a unit among ms, s, m, h, d with a positive
magnitude yields magnitude times the unit's duration (0.001, 1, 60, 3600,
86400 seconds respectively); a non-matching specification or a zero magnitude
fails with the invalid-step error, and a failing parse makes the whole
collision computation fail with that error so no grid is produced. -/
theorem C4_step_spec_parsing :
    (parse_precision none = .ok 60)
    ∧ (∀ (v : String) (n : Nat) (u : String), stepSpecMatch v = some (n, u) → 0 < n →
        parse_precision (some v) = .ok ((n : ℚ) * unitSeconds u))
    ∧ (∀ v : String, stepSpecMatch v = none →
        parse_precision (some v) = .error .invalidStepError)
    ∧ (∀ (v : String) (u : String), stepSpecMatch v = some (0, u) →
        parse_precision (some v) = .error .invalidStepError)
    ∧ (unitSeconds "ms" = 1 / 1000 ∧ unitSeconds "s" = 1 ∧ unitSeconds "m" = 60
        ∧ unitSeconds "h" = 3600 ∧ unitSeconds "d" = 86400)
    ∧ (∀ (ops : RealOps) (sats : List (Int × Satellite)) (orbits : Int → Option Orbit)
        (s e : ℚ) (prec : Option String) (err : ApiError),
        parse_precision prec = .error err →
        get_collisions ops sats orbits s e prec = .error err) := by
  refine ⟨rfl, ?_, ?_, ?_, ⟨rfl, rfl, rfl, rfl, rfl⟩, ?_⟩
  · intro v n u hm hn
    simp [parse_precision, hm, Nat.not_le.mpr hn]
  · intro v hm
    simp [parse_precision, hm]
  · intro v u hm
    simp [parse_precision, hm]
  · intro ops sats orbits s e prec err hp
    simp [get_collisions, hp]

/-- Witness for C4: the spec 500ms parses to half a second, the spec 0s and a
malformed spec fail, and a failing parse propagates to the scan. -/
theorem C4_step_spec_parsing_witness :
    (stepSpecMatch "500ms" = some (500, "ms") ∧ 0 < 500
      ∧ parse_precision (some "500ms") = .ok ((500 : ℚ) * unitSeconds "ms"))
    ∧ (stepSpecMatch "xms" = none
      ∧ parse_precision (some "xms") = .error .invalidStepError)
    ∧ (stepSpecMatch "0s" = some (0, "s")
      ∧ parse_precision (some "0s") = .error .invalidStepError)
    ∧ (parse_precision (some "xms") = .error .invalidStepError
      ∧ get_collisions sampleOps [] (fun _ => none) 0 0 (some "xms")
        = .error .invalidStepError) :=
  ⟨⟨rfl, by norm_num, C4_step_spec_parsing.2.1 "500ms" 500 "ms" rfl (by norm_num)⟩,
   ⟨rfl, C4_step_spec_parsing.2.2.1 "xms" rfl⟩,
   ⟨rfl, C4_step_spec_parsing.2.2.2.1 "0s" "s" rfl⟩,
   ⟨rfl, C4_step_spec_parsing.2.2.2.2.2 sampleOps [] (fun _ => none) 0 0 (some "xms")
      .invalidStepError rfl⟩⟩

/-- C3: for a positive step and start at most end, the time grid is the
sequence obtained by floor-rounding both bounds to multiples of the step from
the Unix epoch and repeatedly adding the step: element i is rounded(start)
plus i steps, the first grid instant is rounded(start) and the last one is
exactly rounded(end) (inclusive upper bound after rounding). -/
theorem C3_time_grid (s e step : ℚ) (hstep : 0 < step) (hse : s ≤ e) :
    gridLoop step (round_datetime_to_grid e step) (round_datetime_to_grid s step)
      = (List.range ((⌊e / step⌋ - ⌊s / step⌋).toNat + 1)).map
          (fun i : ℕ => round_datetime_to_grid s step + (i : ℚ) * step)
    ∧ (gridLoop step (round_datetime_to_grid e step) (round_datetime_to_grid s step)).head?
        = some (round_datetime_to_grid s step)
    ∧ (gridLoop step (round_datetime_to_grid e step) (round_datetime_to_grid s step)).getLast?
        = some (round_datetime_to_grid e step) := by
  have hfle : ⌊s / step⌋ ≤ ⌊e / step⌋ :=
    Int.floor_le_floor ((div_le_div_iff_of_pos_right hstep).mpr hse)
  have hK : (0 : ℤ) ≤ ⌊e / step⌋ - ⌊s / step⌋ := by omega
  have hrle : round_datetime_to_grid s step ≤ round_datetime_to_grid e step := by
    unfold round_datetime_to_grid
    exact mul_le_mul_of_nonneg_right (by exact_mod_cast hfle) hstep.le
  have hdiff : (round_datetime_to_grid e step - round_datetime_to_grid s step) / step
      = ((⌊e / step⌋ - ⌊s / step⌋ : ℤ) : ℚ) := by
    unfold round_datetime_to_grid
    push_cast
    field_simp
    ring
  have hmain : gridLoop step (round_datetime_to_grid e step) (round_datetime_to_grid s step)
      = (List.range ((⌊e / step⌋ - ⌊s / step⌋).toNat + 1)).map
          (fun i : ℕ => round_datetime_to_grid s step + (i : ℚ) * step) := by
    rw [gridLoop_closed step (round_datetime_to_grid e step) hstep, if_pos hrle, hdiff,
      Int.floor_intCast]
  refine ⟨hmain, ?_, ?_⟩
  · rw [hmain, List.head?_map, List.range_succ_eq_map]
    simp
  · rw [hmain, List.range_succ, List.map_append]
    simp only [List.map_cons, List.map_nil]
    rw [List.getLast?_concat]
    have hlast : round_datetime_to_grid s step
        + ((((⌊e / step⌋ - ⌊s / step⌋).toNat : ℕ)) : ℚ) * step
        = round_datetime_to_grid e step := by
      rw [show (((⌊e / step⌋ - ⌊s / step⌋).toNat : ℕ) : ℚ)
          = ((⌊e / step⌋ - ⌊s / step⌋ : ℤ) : ℚ) by
        exact_mod_cast congrArg Int.cast (Int.toNat_of_nonneg hK)]
      unfold round_datetime_to_grid
      push_cast
      ring
    rw [hlast]

/-- Witness for C3: the 500 ms step over the two-second window from 0 to 2
satisfies the hypotheses, and the resulting grid has exactly 5 instants. -/
theorem C3_time_grid_witness :
    (0 : ℚ) < 1 / 2 ∧ (0 : ℚ) ≤ 2
    ∧ gridLoop (1 / 2) (round_datetime_to_grid 2 (1 / 2)) (round_datetime_to_grid 0 (1 / 2))
        = (List.range ((⌊(2 : ℚ) / (1 / 2)⌋ - ⌊(0 : ℚ) / (1 / 2)⌋).toNat + 1)).map
            (fun i : ℕ => round_datetime_to_grid 0 (1 / 2) + (i : ℚ) * (1 / 2))
    ∧ (gridLoop (1 / 2) (round_datetime_to_grid 2 (1 / 2))
        (round_datetime_to_grid 0 (1 / 2))).length = 5 := by
  have h1 : (0 : ℚ) < 1 / 2 := by norm_num
  have h2 : (0 : ℚ) ≤ 2 := by norm_num
  have hmain := (C3_time_grid 0 2 (1 / 2) h1 h2).1
  refine ⟨h1, h2, hmain, ?_⟩
  rw [hmain, List.length_map, List.length_range]
  norm_num
  decide

/-- C2: per grid instant the scan emits exactly one event per unordered pair
of distinct active entries at Euclidean distance strictly below the minimum
separation of 0.01 km (the canonical enumeration visits each pair once, with
the entry encountered first in iteration order listed first, and emits
nothing for pairs at or beyond the threshold or for an entry with itself);
every event carries the two identifiers sorted ascending, the instant
formatted per the step precision, and the geodetic position of the first
entry in iteration order; sub-second steps format with millisecond precision
and a trailing Z, other steps with second precision and a trailing Z. -/
theorem C2_pair_events (ops : RealOps) (sats : List (Int × Satellite))
    (orbits : Int → Option Orbit) (step ts : ℚ) :
    collisionsAtInstant ops sats orbits step ts
        = specScanInstant ops step ts (activeAt ops sats orbits ts)
    ∧ (collisionsAtInstant ops sats orbits step ts).Forall
        (fun evt => evt.satellite1 ≤ evt.satellite2 ∧ evt.time = format_utc ts step)
    ∧ (step < 1 → format_utc ts step
        = format_utc_seconds ts ++ "." ++ format_utc_millis ts ++ "Z")
    ∧ (1 ≤ step → format_utc ts step = format_utc_seconds ts ++ "Z") := by
  have h1 : collisionsAtInstant ops sats orbits step ts
      = specScanInstant ops step ts (activeAt ops sats orbits ts) := by
    unfold collisionsAtInstant
    by_cases hl : (activeAt ops sats orbits ts).length < 2
    · rw [if_pos hl, specScanInstant_short ops step ts _ hl]
    · rw [if_neg hl, pairScan_eq_spec]
  refine ⟨h1, ?_, ?_, ?_⟩
  · rw [h1]
    exact specScanInstant_forall ops step ts _
  · intro h
    rw [format_utc, if_pos h]
  · intro h
    rw [format_utc, if_neg (not_lt.mpr h)]

/-- Witness for C2: both formatting branches at a concrete instant and step. -/
theorem C2_pair_events_witness :
    ((1 : ℚ) / 2 < 1
      ∧ format_utc 0 (1 / 2)
        = format_utc_seconds 0 ++ "." ++ format_utc_millis 0 ++ "Z")
    ∧ ((1 : ℚ) ≤ 60 ∧ format_utc 0 60 = format_utc_seconds 0 ++ "Z") :=
  ⟨⟨by norm_num,
    (C2_pair_events sampleOps [] (fun _ => none) (1 / 2) 0).2.2.1 (by norm_num)⟩,
   ⟨by norm_num,
    (C2_pair_events sampleOps [] (fun _ => none) 60 0).2.2.2 (by norm_num)⟩⟩

/-- Flat map of the constant empty list is empty. -/
theorem flatMap_const_nil {α γ : Type} (l : List α) :
    (l.flatMap fun _ => ([] : List γ)) = [] := by
  induction l with
  | nil => rfl
  | cons x r ih => rw [List.flatMap_cons, ih, List.nil_append]

/-- Boolean sort relation of the translated code coincides with the
specification's tuple ordering. -/
theorem collisionLe_eq_true_iff (a b : CollisionItem) :
    collisionLe a b = true ↔ collisionKeyLE a b := by
  simp [collisionLe, collisionKeyLE, Bool.or_eq_true, Bool.and_eq_true,
    decide_eq_true_eq]

/-- Tuple ordering of events is transitive. -/
theorem collisionKeyLE_trans {a b c : CollisionItem}
    (hab : collisionKeyLE a b) (hbc : collisionKeyLE b c) : collisionKeyLE a c := by
  rcases hab with h1 | ⟨he1, h2⟩
  · rcases hbc with h3 | ⟨he3, h4⟩
    · exact Or.inl (lt_trans h1 h3)
    · exact Or.inl (he3 ▸ h1)
  · rcases hbc with h3 | ⟨he3, h4⟩
    · exact Or.inl (he1.trans_lt h3)
    · refine Or.inr ⟨he1.trans he3, ?_⟩
      omega

/-- Tuple ordering of events is total. -/
theorem collisionKeyLE_total (a b : CollisionItem) :
    collisionKeyLE a b ∨ collisionKeyLE b a := by
  rcases lt_trichotomy a.time b.time with h | h | h
  · exact Or.inl (Or.inl h)
  · rcases lt_trichotomy a.satellite1 b.satellite1 with h2 | h2 | h2
    · exact Or.inl (Or.inr ⟨h, Or.inl h2⟩)
    · rcases le_total a.satellite2 b.satellite2 with h3 | h3
      · exact Or.inl (Or.inr ⟨h, Or.inr ⟨h2, h3⟩⟩)
      · exact Or.inr (Or.inr ⟨h.symm, Or.inr ⟨h2.symm, h3⟩⟩)
    · exact Or.inr (Or.inr ⟨h.symm, Or.inl h2⟩)
  · exact Or.inr (Or.inl h)

/-- C8: a successful scan returns a permutation of the raw event stream (no
deduplication: every per-pair per-instant event is kept) sorted ascending by
the tuple of formatted-time string (ordinary string comparison), first
identifier, second identifier. -/
theorem C8_canonical_order (ops : RealOps) (sats : List (Int × Satellite))
    (orbits : Int → Option Orbit) (s e : ℚ) (prec : Option String) (step : ℚ)
    (l : List CollisionItem)
    (hp : parse_precision prec = .ok step) (hse : s ≤ e)
    (hl : get_collisions ops sats orbits s e prec = .ok l) :
    l.Perm (scanEvents ops sats orbits step
        (gridLoop step (round_datetime_to_grid e step) (round_datetime_to_grid s step)))
    ∧ l.Sorted collisionKeyLE := by
  have hval : l = (scanEvents ops sats orbits step
      (gridLoop step (round_datetime_to_grid e step)
        (round_datetime_to_grid s step))).mergeSort collisionLe := by
    simp only [get_collisions, hp, not_lt.mpr hse, if_false, Except.ok.injEq] at hl
    exact hl.symm
  have htrans : ∀ x y z : CollisionItem, collisionLe x y = true →
      collisionLe y z = true → collisionLe x z = true := by
    intro x y z hxy hyz
    exact (collisionLe_eq_true_iff x z).mpr
      (collisionKeyLE_trans ((collisionLe_eq_true_iff x y).mp hxy)
        ((collisionLe_eq_true_iff y z).mp hyz))
  have htotal : ∀ x y : CollisionItem, (collisionLe x y || collisionLe y x) = true := by
    intro x y
    rw [Bool.or_eq_true, collisionLe_eq_true_iff, collisionLe_eq_true_iff]
    exact collisionKeyLE_total x y
  rw [hval]
  constructor
  · exact List.mergeSort_perm _ _
  · exact (List.sorted_mergeSort htrans htotal _).imp
      (fun h => (collisionLe_eq_true_iff _ _).mp h)

/-- Witness for C8: the default step over the empty window with an empty store
succeeds with the empty sorted output. -/
theorem C8_canonical_order_witness :
    parse_precision none = .ok 60 ∧ (0 : ℚ) ≤ 0
    ∧ get_collisions sampleOps [] (fun _ => none) 0 0 none = .ok []
    ∧ (List.Perm ([] : List CollisionItem)
        (scanEvents sampleOps [] (fun _ => none) 60
          (gridLoop 60 (round_datetime_to_grid 0 60) (round_datetime_to_grid 0 60)))
      ∧ ([] : List CollisionItem).Sorted collisionKeyLE) := by
  have hok : get_collisions sampleOps [] (fun _ => none) 0 0 none = .ok [] := by
    simp [get_collisions, parse_precision, scanEvents, collisionsAtInstant, activeAt,
      flatMap_const_nil]
  exact ⟨rfl, le_refl 0, hok,
    C8_canonical_order sampleOps [] (fun _ => none) 0 0 none 60 [] rfl (le_refl 0) hok⟩

end SpaceMarines
